import Mathlib

/-!
Verification of the stateful Python execution tool
(`gpt_oss/tools/python_stateful.py`).

The development shallowly embeds the two components of the source file:

* `StatefulPythonExecutor` becomes `ExecState` (the persistent `globals`
  mapping plus the `execution_count`) together with the function `execute`,
  which mirrors the source's `execute` method branch for branch: the
  blank-input early return, the parse branch, the rewrite of a final bare
  expression into an assignment to the reserved result slot, execution
  against the persistent mapping with captured stdout, the slot pop that
  sets `_`, the caught runtime fault writing a formatted traceback to the
  captured stderr, and the final report composition.

* `StatefulPythonTool._process` becomes `process`, which extracts the first
  content part's text, short-circuits on an empty string, otherwise calls
  `execute`, and wraps the output in a response message with the fixed tool
  author, the fixed recipient, and the truthiness-guarded channel copy.

Submitted Python code is modelled by a small statement language `Stmt` over
expressions `Expr` covering what the claims exercise: literals, variable
lookup (raising `NameError` when unbound), integer addition and division
(the latter raising `ZeroDivisionError` on a zero divisor), `print` calls
(which write to the captured stdout and evaluate to `None`), assignments,
`del`, `import`, and `pass`.  Every runtime error of this fragment is an
ordinary `Exception`-derived Python exception, so the source's
`except Exception` handler catches all of them.  CPython's `ast.parse` is
external to the source file; its outcome on the submitted text (a module
body, or a `SyntaxError`) is supplied alongside the text as an oracle field
of `Input`.  The environment is modelled as a finite-support function
`String → Option Value`, matching the observable behaviour of the Python
`dict` used by the source (`in`, item get/set, `pop`).
-/

namespace StatefulPython

/-- Python values, restricted to the fragment the modelled programs build.
`Value.none` is Python's `None`, the null/absence sentinel the source tests
with `is not None`. -/
inductive Value where
| none
| int (n : Int)
| bool (b : Bool)
| str (s : String)
| module (name : String)
deriving DecidableEq

/-- Python `repr`, as used by the source's report composition.  String
escaping is not modelled; the claims never exercise it. -/
def pyRepr : Value → String
| Value.none => "None"
| Value.int n => toString n
| Value.bool true => "True"
| Value.bool false => "False"
| Value.str s => "'" ++ s ++ "'"
| Value.module n => "<module '" ++ n ++ "'>"

/-- Python `str`, as used by `print`. -/
def pyStr : Value → String
| Value.str s => s
| v => pyRepr v

/-- A raised Python exception: its class name and message.  Every
exception raised by the modelled fragment derives from `Exception`, so it
is caught by the source's `except Exception` handler. -/
structure PyErr where
name : String
msg : String
deriving DecidableEq

/-- The persistent namespace: the observable content of the executor's
`self.globals` dict. -/
def Env : Type := String → Option Value

/-- `globals[n] = v`. -/
def Env.set (g : Env) (n : String) (v : Value) : Env :=
fun k => if k = n then some v else g k

/-- `globals.pop(n)`'s effect on the mapping. -/
def Env.erase (g : Env) (n : String) : Env :=
fun k => if k = n then none else g k

/-- The empty mapping. -/
def Env.empty : Env := fun _ => none

/-- Expressions of the modelled Python fragment. -/
inductive Expr where
| lit (v : Value)
| var (name : String)
| add (a b : Expr)
| div (a b : Expr)
| printCall (arg : Expr)
deriving DecidableEq

/-- Top-level statements of the modelled Python fragment.  `exprStmt`
is an `ast.Expr` node (a bare expression statement), `assign` an
`ast.Assign` with a single name target, `delStmt` an `ast.Delete`,
`importStmt` an `import`, and `pass` the no-op statement. -/
inductive Stmt where
| exprStmt (e : Expr)
| assign (name : String) (e : Expr)
| delStmt (name : String)
| importStmt (name : String)
| pass
deriving DecidableEq

/-- The names a statement binds or unbinds: the target of an assignment,
of a `del`, or of an `import`.  A bare expression statement targets
nothing. -/
def Stmt.targets : Stmt → List String
| Stmt.assign n _ => [n]
| Stmt.delStmt n => [n]
| Stmt.importStmt n => [n]
| _ => []

/-- Evaluate an expression: the stdout text it writes, and its value or
the exception it raises. -/
def evalExpr (g : Env) : Expr → String × Except PyErr Value
| Expr.lit v => ("", Except.ok v)
| Expr.var n =>
  ("", match g n with
       | some v => Except.ok v
       | none => Except.error ⟨"NameError", "name '" ++ n ++ "' is not defined"⟩)
| Expr.add a b =>
  let r₁ := evalExpr g a
  match r₁.2 with
  | Except.error e => (r₁.1, Except.error e)
  | Except.ok v₁ =>
    let r₂ := evalExpr g b
    match r₂.2 with
    | Except.error e => (r₁.1 ++ r₂.1, Except.error e)
    | Except.ok v₂ =>
      match v₁, v₂ with
      | Value.int x, Value.int y => (r₁.1 ++ r₂.1, Except.ok (Value.int (x + y)))
      | _, _ => (r₁.1 ++ r₂.1, Except.error ⟨"TypeError", "unsupported operand type(s) for +"⟩)
| Expr.div a b =>
  let r₁ := evalExpr g a
  match r₁.2 with
  | Except.error e => (r₁.1, Except.error e)
  | Except.ok v₁ =>
    let r₂ := evalExpr g b
    match r₂.2 with
    | Except.error e => (r₁.1 ++ r₂.1, Except.error e)
    | Except.ok v₂ =>
      match v₁, v₂ with
      | Value.int x, Value.int y =>
        if y = 0 then (r₁.1 ++ r₂.1, Except.error ⟨"ZeroDivisionError", "division by zero"⟩)
        else (r₁.1 ++ r₂.1, Except.ok (Value.int (x / y)))
      | _, _ => (r₁.1 ++ r₂.1, Except.error ⟨"TypeError", "unsupported operand type(s) for /"⟩)
| Expr.printCall a =>
  let r := evalExpr g a
  match r.2 with
  | Except.error e => (r.1, Except.error e)
  | Except.ok v => (r.1 ++ pyStr v ++ "\n", Except.ok Value.none)

/-- Execute one statement: stdout text written, and the updated namespace
or the exception raised. -/
def execStmt (g : Env) : Stmt → String × Except PyErr Env
| Stmt.exprStmt e =>
  match evalExpr g e with
  | (o, Except.error er) => (o, Except.error er)
  | (o, Except.ok _) => (o, Except.ok g)
| Stmt.assign n e =>
  match evalExpr g e with
  | (o, Except.error er) => (o, Except.error er)
  | (o, Except.ok v) => (o, Except.ok (g.set n v))
| Stmt.delStmt n =>
  ("", if (g n).isSome then Except.ok (g.erase n)
       else Except.error ⟨"NameError", "name '" ++ n ++ "' is not defined"⟩)
| Stmt.importStmt n => ("", Except.ok (g.set n (Value.module n)))
| Stmt.pass => ("", Except.ok g)

/-- Outcome of running a statement list: the namespace reached, the stdout
text written, and the first uncaught exception if one was raised.  When an
exception is raised, later statements do not run and the namespace reached
is the one at the point of the fault. -/
structure RunResult where
env : Env
out : String
err : Option PyErr

/-- Run statements in order, as `exec` does for a module body: each
statement commits its mutations before the next runs, and the first raised
exception aborts the rest. -/
def runStmts (g : Env) : List Stmt → RunResult
| [] => ⟨g, "", none⟩
| s :: rest =>
  match execStmt g s with
  | (o, Except.error e) => ⟨g, o, some e⟩
  | (o, Except.ok g₂) =>
    let res := runStmts g₂ rest
    ⟨res.env, o ++ res.out, res.err⟩

/-- The reserved slot name (`StatefulPythonExecutor._RESULT_SLOT`). -/
def RESULT_SLOT : String := "_REPL_LAST_EXPR_VALUE_DO_NOT_USE_"

/-- The rewrite of the final top-level statement: a bare expression
statement becomes an assignment of that expression to the reserved slot. -/
def rewriteLast : Stmt → Stmt × Bool
| Stmt.exprStmt e => (Stmt.assign RESULT_SLOT e, true)
| s => (s, false)

/-- The source's AST transformation: if the module body's last top-level
statement is an `ast.Expr`, replace it by an assignment to the reserved
slot and set `capture_result`.  All other statements are left unchanged
and in order. -/
def rewriteBody : List Stmt → List Stmt × Bool
| [] => ([], false)
| [s] => ((rewriteLast s).1 :: [], (rewriteLast s).2)
| s :: rest =>
  let r := rewriteBody rest
  (s :: r.1, r.2)

/-- `traceback.format_exc()` for a runtime fault, as written to the
captured stderr. -/
def formatExc (e : PyErr) : String :=
"Traceback (most recent call last):\n  File \"<input>\", line 1, in <module>\n"
  ++ e.name ++ ": " ++ e.msg ++ "\n"

/-- `traceback.format_exc()` for a `SyntaxError` raised by `ast.parse`,
given the parser's message. -/
def synTraceback (m : String) : String :=
"Traceback (most recent call last):\n  File \"<input>\", line 1\nSyntaxError: "
  ++ m ++ "\n"

/-- `not code.strip()`: true exactly when the text is empty or
whitespace-only. -/
def isBlank (s : String) : Bool := s.data.all Char.isWhitespace

/-- Python `str.rstrip()`: drop trailing whitespace. -/
def rstrip (s : String) : String :=
⟨(s.data.reverse.dropWhile Char.isWhitespace).reverse⟩

/-- The report label `"[Execution #<n>]"`. -/
def execLabel (n : Nat) : String := "[Execution #" ++ toString n ++ "]"

/-- `"\n".join(parts)`. -/
def joinLines : List String → String
| [] => ""
| [x] => x
| x :: xs => x ++ "\n" ++ joinLines xs

/-- The source's report composition (its final `parts` block): stdout
rstripped if the captured stdout is non-empty, then `repr(result_value)` if
`result_value is not None`, then stderr rstripped if the captured stderr is
non-empty, joined to the label with newlines; the bare label if no part is
present. -/
def composeParts (n : Nat) (output_text : String) (result_value : Value)
    (error_text : String) : String :=
let parts : List String :=
  (if output_text = "" then [] else [rstrip output_text]) ++
  (if result_value = Value.none then [] else [pyRepr result_value]) ++
  (if error_text = "" then [] else [rstrip error_text])
if parts.isEmpty then execLabel n
else execLabel n ++ "\n" ++ joinLines parts

/-- Appends an optional report part: nothing when the part is absent, a
newline and the part when present. -/
def appendPart (report : String) (part : Option String) : String :=
match part with
| none => report
| some p => report ++ "\n" ++ p

/-- Modelled from the spec's words for the report format (step 8 of the
`execute` behaviour): start with the counter label; append the captured
standard-output text (trailing whitespace trimmed) if non-empty; append the
textual representation of the result value if it is not the null value;
append the captured error text (trailing whitespace trimmed) if non-empty;
with newlines only between present parts and absent parts omitted
entirely.  This definition follows the spec sentence; `composeParts`
follows the source, and the two are compared in the `report_composition`
theorem. -/
def specComposeReport (n : Nat) (stdoutText : String) (rv : Value)
    (errText : String) : String :=
appendPart (appendPart (appendPart (execLabel n)
  (if stdoutText = "" then none else some (rstrip stdoutText)))
  (if rv = Value.none then none else some (pyRepr rv)))
  (if errText = "" then none else some (rstrip errText))

/-- Outcome of the parse-success path of `execute` on a module body: the
new `globals`, the captured stdout, the Python variable `result_value`
(initialised to `None`, set by the slot pop), and the captured stderr. -/
structure BodyResult where
globals : Env
out : String
rv : Value
err : String

/-- The parse-success path of `execute`: rewrite the final bare expression
(if any) to capture its value in the reserved slot, run the rewritten body
against the persistent namespace, and on success pop the slot into
`result_value` and set `_`; a raised fault is caught, leaves the mutations
made so far in place, and writes the formatted traceback to the captured
stderr. -/
def execBody (g : Env) (body : List Stmt) : BodyResult :=
let rw := rewriteBody body
let res := runStmts g rw.1
match res.err with
| some e => ⟨res.env, res.out, Value.none, formatExc e⟩
| none =>
  match rw.2, res.env RESULT_SLOT with
  | true, some v => ⟨(res.env.erase RESULT_SLOT).set "_" v, res.out, v, ""⟩
  | true, none => ⟨res.env, res.out, Value.none, ""⟩
  | false, _ => ⟨res.env, res.out, Value.none, ""⟩

/-- The executor's persistent state: `self.globals` and
`self.execution_count`. -/
structure ExecState where
globals : Env
execution_count : Nat

/-- The seed bindings of `StatefulPythonExecutor.__init__`. -/
def initGlobals : Env :=
((Env.empty.set "__name__" (Value.str "__main__")).set "__package__"
    Value.none).set "__builtins__" (Value.module "builtins")

/-- A freshly constructed executor. -/
def initState : ExecState := ⟨initGlobals, 0⟩

/-- One submitted fragment: the raw text, together with the outcome of
CPython's `ast.parse` on that text (`Except.error m` models a raised
`SyntaxError` with message `m`).  The parser is external to the source
file, so its verdict is supplied as an oracle with the input. -/
structure Input where
text : String
parsed : Except String (List Stmt)

/-- The module body the input parses to (empty on a syntax error). -/
def Input.bodyOf : Input → List Stmt
| ⟨_, Except.ok body⟩ => body
| ⟨_, Except.error _⟩ => []

/-- `StatefulPythonExecutor.execute`: increment the counter; return the
bare label on blank input; on a syntax error skip execution and report the
formatted diagnostic; otherwise run the (rewritten) body via `execBody` and
compose the report from the captured stdout, `result_value`, and the
captured stderr. -/
def execute (st : ExecState) (inp : Input) : String × ExecState :=
let n := st.execution_count + 1
if isBlank inp.text then (execLabel n, ⟨st.globals, n⟩)
else
  match inp.parsed with
  | Except.error m =>
    (composeParts n "" Value.none (synTraceback m), ⟨st.globals, n⟩)
  | Except.ok body =>
    let r := execBody st.globals body
    (composeParts n r.out r.rv r.err, ⟨r.globals, n⟩)

/-- A sequence of calls on the same executor, reports discarded. -/
def runCalls (st : ExecState) : List Input → ExecState
| [] => st
| i :: is => runCalls (execute st i).2 is

/-- Message roles of the harmony envelope (only `tool` is produced). -/
inductive MRole where
| user
| assistant
| system
| tool
deriving DecidableEq

/-- `Author(role=..., name=...)`. -/
structure MAuthor where
role : MRole
name : String
deriving DecidableEq

/-- `TextContent(text=...)`. -/
structure MText where
text : String
deriving DecidableEq

/-- The harmony message envelope, restricted to the fields `_process`
reads and writes: author, content parts, channel, recipient. -/
structure MessageM where
author : MAuthor
content : List MText
channel : Option String
recipient : Option String
deriving DecidableEq

/-- `message.content[0].text if message.content else ""`. -/
def firstText (message : MessageM) : String :=
match message.content with
| [] => ""
| c :: _ => c.text

/-- `StatefulPythonTool._process`: extract the first content part's text
(empty if there are no parts); short-circuit with the fixed diagnostic on
an empty string without invoking the executor; otherwise execute.  Wrap the
output in one response with author `tool`/`"python"` and recipient
`"assistant"`, copying the inbound channel exactly when it is truthy
(present and non-empty).  `parse` is the external parser applied to the
extracted code. -/
def process (parse : String → Except String (List Stmt)) (st : ExecState)
    (message : MessageM) : List MessageM × ExecState :=
let code := firstText message
let r := if code = "" then ("Error: No code provided", st)
         else execute st ⟨code, parse code⟩
let response : MessageM := ⟨⟨MRole.tool, "python"⟩, [⟨r.1⟩], none, some "assistant"⟩
let response := match message.channel with
  | some c => if c = "" then response else { response with channel := some c }
  | none => response
([response], r.2)

/-! ### Lemmas about the environment, the runner, and the rewrite -/

theorem Env.set_apply_self (g : Env) (n : String) (v : Value) : (g.set n v) n = some v := by
simp [Env.set]

theorem Env.set_apply_ne (g : Env) (n k : String) (v : Value) (h : k ≠ n) :
    (g.set n v) k = g k := by
simp [Env.set, h]

theorem Env.erase_apply_self (g : Env) (n : String) : (g.erase n) n = none := by
simp [Env.erase]

theorem Env.erase_apply_ne (g : Env) (n k : String) (h : k ≠ n) : (g.erase n) k = g k := by
simp [Env.erase, h]

/-- A successful statement changes no binding outside its targets. -/
theorem execStmt_frame {g : Env} {s : Stmt} {n : String} (hn : n ∉ s.targets)
    {o : String} {g₂ : Env} (h : execStmt g s = (o, Except.ok g₂)) : g₂ n = g n := by
cases s with
| exprStmt e =>
  rcases he : evalExpr g e with ⟨o₁, r⟩
  cases r <;> simp [execStmt, he] at h
  rw [← h.2]
| assign m e =>
  rcases he : evalExpr g e with ⟨o₁, r⟩
  cases r <;> simp [execStmt, he] at h
  rw [← h.2]
  exact Env.set_apply_ne _ _ _ _ (by simpa [Stmt.targets] using hn)
| delStmt m =>
  by_cases hb : (g m).isSome <;> simp [execStmt, hb] at h
  rw [← h.2]
  exact Env.erase_apply_ne _ _ _ (by simpa [Stmt.targets] using hn)
| importStmt m =>
  simp [execStmt] at h
  rw [← h.2]
  exact Env.set_apply_ne _ _ _ _ (by simpa [Stmt.targets] using hn)
| pass =>
  simp [execStmt] at h
  rw [← h.2]

/-- Running a statement list changes no binding outside the statements'
targets, whether or not a fault aborts the run. -/
theorem runStmts_frame {n : String} : ∀ (l : List Stmt) (g : Env),
    (∀ s ∈ l, n ∉ s.targets) → (runStmts g l).env n = g n := by
intro l
induction l with
| nil => intro g _; simp [runStmts]
| cons s rest ih =>
  intro g hl
  rcases hst : execStmt g s with ⟨o, r⟩
  cases r with
  | error e => simp [runStmts, hst]
  | ok g₂ =>
    simp [runStmts, hst]
    rw [ih g₂ (fun t ht => hl t (List.mem_cons_of_mem _ ht))]
    exact execStmt_frame (hl s (List.mem_cons_self _ _)) hst

/-- A fault at statement `s` freezes the run: the statements after `s`
never execute, the namespace is the one reached before `s`, and the
captured stdout is what the completed prefix and `s` wrote. -/
theorem runStmts_fault_append : ∀ (p : List Stmt) (g g₁ : Env) (o₁ : String) (s : Stmt)
    (o₂ : String) (e : PyErr) (rest : List Stmt),
    runStmts g p = ⟨g₁, o₁, none⟩ → execStmt g₁ s = (o₂, Except.error e) →
    runStmts g (p ++ s :: rest) = ⟨g₁, o₁ ++ o₂, some e⟩ := by
intro p
induction p with
| nil =>
  intro g g₁ o₁ s o₂ e rest hp hs
  rw [runStmts] at hp
  injection hp with h₁ h₂ h₃
  subst h₁
  subst h₂
  simp [runStmts, hs, String.empty_append]
| cons a p₂ ih =>
  intro g g₁ o₁ s o₂ e rest hp hs
  rcases hst : execStmt g a with ⟨o, r⟩
  cases r with
  | error e₂ =>
    simp only [runStmts, hst, RunResult.mk.injEq] at hp
    simp at hp
  | ok g₂ =>
    simp only [runStmts, hst, RunResult.mk.injEq] at hp
    obtain ⟨h₁, h₂, h₃⟩ := hp
    have hrun : runStmts g₂ p₂ = ⟨g₁, (runStmts g₂ p₂).out, none⟩ := by
      rcases hr : runStmts g₂ p₂ with ⟨a₁, a₂, a₃⟩
      rw [hr] at h₁ h₃
      simp at h₁ h₃
      simp [h₁, h₃]
    have hrec := ih g₂ g₁ (runStmts g₂ p₂).out s o₂ e rest hrun hs
    simp only [List.cons_append, runStmts, hst]
    simp only [List.append_eq]
    rw [hrec]
    simp [← String.append_assoc, h₂]

/-- After a fault-free run of a body ending in an assignment to `m`, the
name `m` is bound. -/
theorem runStmts_last_assign : ∀ (p : List Stmt) (g : Env) (m : String) (e : Expr),
    (runStmts g (p ++ [Stmt.assign m e])).err = none →
    ((runStmts g (p ++ [Stmt.assign m e])).env m).isSome := by
intro p
induction p with
| nil =>
  intro g m e h
  rcases he : evalExpr g e with ⟨o, r⟩
  cases r with
  | error er => simp [runStmts, execStmt, he] at h
  | ok v => simp [runStmts, execStmt, he, Env.set_apply_self]
| cons a p₂ ih =>
  intro g m e h
  rcases hst : execStmt g a with ⟨o, r⟩
  cases r with
  | error er => simp [runStmts, hst] at h
  | ok g₂ =>
    simp [runStmts, hst] at h ⊢
    exact ih g₂ m e h

theorem rewriteBody_cons₂ (x y : Stmt) (l : List Stmt) :
    rewriteBody (x :: y :: l) =
      (x :: (rewriteBody (y :: l)).1, (rewriteBody (y :: l)).2) := rfl

/-- The rewrite only replaces a final bare expression statement. -/
theorem rewriteBody_concat : ∀ (p : List Stmt) (s : Stmt),
    rewriteBody (p ++ [s]) = (p ++ [(rewriteLast s).1], (rewriteLast s).2) := by
intro p
induction p with
| nil => intro s; simp [rewriteBody]
| cons a p₂ ih =>
  intro s
  rcases hp : p₂ ++ [s] with _ | ⟨b, t⟩
  · exact absurd hp (by simp)
  · have key : rewriteBody (a :: (p₂ ++ [s])) =
        (a :: (rewriteBody (p₂ ++ [s])).1, (rewriteBody (p₂ ++ [s])).2) := by
      rw [hp, rewriteBody_cons₂]
    rw [List.cons_append, key, ih s]
    simp

/-- `capture_result` is set exactly when the body ends in a bare
expression statement. -/
theorem capture_shape : ∀ (body : List Stmt), (rewriteBody body).2 = true →
    ∃ p e, body = p ++ [Stmt.exprStmt e] := by
intro body
induction body with
| nil => simp [rewriteBody]
| cons a l ih =>
  intro h
  cases l with
  | nil =>
    cases a with
    | exprStmt e => exact ⟨[], e, rfl⟩
    | assign m e => simp [rewriteBody, rewriteLast] at h
    | delStmt m => simp [rewriteBody, rewriteLast] at h
    | importStmt m => simp [rewriteBody, rewriteLast] at h
    | pass => simp [rewriteBody, rewriteLast] at h
  | cons b t =>
    rw [rewriteBody_cons₂] at h
    obtain ⟨p, e, hp⟩ := ih h
    exact ⟨a :: p, e, by simp [hp]⟩

/-- The rewritten body targets no name outside the original body's
targets and the reserved slot. -/
theorem rewriteBody_targets : ∀ (body : List Stmt) (n : String), n ≠ RESULT_SLOT →
    (∀ s ∈ body, n ∉ s.targets) → ∀ s ∈ (rewriteBody body).1, n ∉ s.targets := by
intro body
induction body with
| nil => intro n _ _ s hs; simp [rewriteBody] at hs
| cons a l ih =>
  intro n hslot hb
  cases l with
  | nil =>
    intro s hs
    cases a with
    | exprStmt e =>
      simp [rewriteBody, rewriteLast] at hs
      subst hs
      simpa [Stmt.targets] using hslot
    | assign m e =>
      simp [rewriteBody, rewriteLast] at hs
      subst hs
      exact hb _ (by simp)
    | delStmt m =>
      simp [rewriteBody, rewriteLast] at hs
      subst hs
      exact hb _ (by simp)
    | importStmt m =>
      simp [rewriteBody, rewriteLast] at hs
      subst hs
      exact hb _ (by simp)
    | pass =>
      simp [rewriteBody, rewriteLast] at hs
      subst hs
      exact hb _ (by simp)
  | cons b t =>
    intro s hs
    rw [rewriteBody_cons₂] at hs
    simp only [List.mem_cons] at hs
    rcases hs with rfl | hs
    · exact hb _ (by simp)
    · exact ih n hslot (fun u hu => hb u (List.mem_cons_of_mem _ hu)) s hs

/-- A caught runtime fault keeps the namespace reached at the fault and
reports the formatted traceback as the captured stderr. -/
theorem execBody_fault {g : Env} {body : List Stmt} {e : PyErr}
    (h : (runStmts g (rewriteBody body).1).err = some e) :
    execBody g body = ⟨(runStmts g (rewriteBody body).1).env,
      (runStmts g (rewriteBody body).1).out, Value.none, formatExc e⟩ := by
simp [execBody, h]

/-- When a capture was expected and the slot is bound after a fault-free
run, the slot is popped and `_` is set to the captured value. -/
theorem execBody_capture {g : Env} {body : List Stmt} {v : Value}
    (hc : (rewriteBody body).2 = true)
    (he : (runStmts g (rewriteBody body).1).err = none)
    (hv : (runStmts g (rewriteBody body).1).env RESULT_SLOT = some v) :
    execBody g body = ⟨((runStmts g (rewriteBody body).1).env.erase RESULT_SLOT).set "_" v,
      (runStmts g (rewriteBody body).1).out, v, ""⟩ := by
simp [execBody, hc, he, hv]

/-- Without an expected capture, a fault-free run commits its namespace
unchanged by the read-back machinery. -/
theorem execBody_plain {g : Env} {body : List Stmt}
    (he : (runStmts g (rewriteBody body).1).err = none)
    (hc : (rewriteBody body).2 = false) :
    execBody g body = ⟨(runStmts g (rewriteBody body).1).env,
      (runStmts g (rewriteBody body).1).out, Value.none, ""⟩ := by
simp [execBody, hc, he]

theorem execute_blank {st : ExecState} {inp : Input} (h : isBlank inp.text = true) :
    execute st inp =
      (execLabel (st.execution_count + 1), ⟨st.globals, st.execution_count + 1⟩) := by
simp [execute, h]

theorem execute_synErr {st : ExecState} {text : String} {m : String}
    (h : isBlank text = false) :
    execute st ⟨text, Except.error m⟩ =
      (composeParts (st.execution_count + 1) "" Value.none (synTraceback m),
       ⟨st.globals, st.execution_count + 1⟩) := by
simp [execute, h]

theorem execute_run {st : ExecState} {text : String} {body : List Stmt}
    (h : isBlank text = false) :
    execute st ⟨text, Except.ok body⟩ =
      (composeParts (st.execution_count + 1) (execBody st.globals body).out
        (execBody st.globals body).rv (execBody st.globals body).err,
       ⟨(execBody st.globals body).globals, st.execution_count + 1⟩) := by
simp [execute, h]

/-- The source's list-and-join composition agrees with the spec's
sequential append-if-present composition. -/
theorem compose_eq_spec (n : Nat) (o : String) (rv : Value) (e : String) :
    composeParts n o rv e = specComposeReport n o rv e := by
by_cases h₁ : o = "" <;> by_cases h₂ : rv = Value.none <;> by_cases h₃ : e = "" <;>
  simp [composeParts, specComposeReport, appendPart, joinLines, h₁, h₂, h₃,
    String.append_assoc]

/-- Appending an optional part extends the report on the right. -/
theorem appendPart_extend (r : String) (p : Option String) :
    ∃ t : String, appendPart r p = r ++ t := by
cases p with
| none => exact ⟨"", (String.append_empty r).symm⟩
| some x => exact ⟨"\n" ++ x, String.append_assoc r "\n" x⟩

/-- Every composed report extends the counter label. -/
theorem composeParts_label (n : Nat) (o : String) (rv : Value) (e : String) :
    ∃ t : String, composeParts n o rv e = execLabel n ++ t := by
rw [compose_eq_spec]
unfold specComposeReport
obtain ⟨t₃, h₃⟩ := appendPart_extend
  (appendPart (appendPart (execLabel n)
    (if o = "" then none else some (rstrip o)))
    (if rv = Value.none then none else some (pyRepr rv)))
  (if e = "" then none else some (rstrip e))
obtain ⟨t₂, h₂⟩ := appendPart_extend
  (appendPart (execLabel n) (if o = "" then none else some (rstrip o)))
  (if rv = Value.none then none else some (pyRepr rv))
obtain ⟨t₁, h₁⟩ := appendPart_extend (execLabel n)
  (if o = "" then none else some (rstrip o))
refine ⟨t₁ ++ (t₂ ++ t₃), ?_⟩
rw [h₃, h₂, h₁, String.append_assoc, String.append_assoc]

/-- The formatted `SyntaxError` traceback is never the empty string. -/
theorem synTraceback_ne_empty (m : String) : synTraceback m ≠ "" := by
intro h
have h₂ := congrArg String.data h
simp [synTraceback, String.data_append] at h₂

/-- The parse-success path changes no binding outside the submitted
statements' targets, the reserved slot, and `_`. -/
theorem execBody_frame {g : Env} {body : List Stmt} {name : String}
    (h₁ : name ≠ RESULT_SLOT) (h₂ : name ≠ "_")
    (h₃ : ∀ s ∈ body, name ∉ s.targets) :
    (execBody g body).globals name = g name := by
have hts := rewriteBody_targets body name h₁ h₃
have hframe : (runStmts g (rewriteBody body).1).env name = g name :=
  runStmts_frame _ _ hts
cases herr : (runStmts g (rewriteBody body).1).err with
| some e => simp [execBody, herr, hframe]
| none =>
  cases hcap : (rewriteBody body).2 with
  | false => simp [execBody, herr, hcap, hframe]
  | true =>
    cases hslot : (runStmts g (rewriteBody body).1).env RESULT_SLOT with
    | none => simp [execBody, herr, hcap, hslot, hframe]
    | some v =>
      simp only [execBody, herr, hcap, hslot]
      rw [Env.set_apply_ne _ _ _ _ h₂, Env.erase_apply_ne _ _ _ h₁, hframe]

/-- One call to `execute` changes no binding outside the fragment's
targets, the reserved slot, and `_`. -/
theorem execute_frame {st : ExecState} {inp : Input} {name : String}
    (h₁ : name ≠ RESULT_SLOT) (h₂ : name ≠ "_")
    (h₃ : ∀ s ∈ inp.bodyOf, name ∉ s.targets) :
    (execute st inp).2.globals name = st.globals name := by
rcases inp with ⟨text, parsed⟩
by_cases hbl : isBlank text = true
· rw [execute_blank hbl]
· have hbl₂ : isBlank text = false := by simpa using hbl
  cases parsed with
  | error m => rw [execute_synErr hbl₂]
  | ok body =>
    rw [execute_run hbl₂]
    exact execBody_frame h₁ h₂ (by simpa [Input.bodyOf] using h₃)

/-! ### Claim theorems -/

/-- C1: across any sequence of calls on the same executor, a binding whose
name is not the reserved slot, not `_`, and not the target of any
assignment, `del`, or `import` of any submitted fragment keeps exactly the
value (or absence) it had: `execute`'s machinery only adds or updates
entries — it sets `_` and pops the reserved slot — and never touches any
other binding, so identifiers bound by an earlier call are present with
the same value at every later call. -/
theorem env_monotonic_across_calls (st : ExecState) (inputs : List Input)
    (name : String) (h₁ : name ≠ RESULT_SLOT) (h₂ : name ≠ "_")
    (h₃ : ∀ inp ∈ inputs, ∀ s ∈ inp.bodyOf, name ∉ s.targets) :
    (runCalls st inputs).globals name = st.globals name := by
induction inputs generalizing st with
| nil => rfl
| cons i is ih =>
  have hstep : (execute st i).2.globals name = st.globals name :=
    execute_frame h₁ h₂ (h₃ i (List.mem_cons_self _ _))
  rw [runCalls, ih (execute st i).2 (fun inp hinp => h₃ inp (List.mem_cons_of_mem _ hinp)),
    hstep]

theorem env_monotonic_across_calls_witness :
    ("x" ≠ RESULT_SLOT) ∧ ("x" ≠ "_") ∧
    (runCalls ⟨initGlobals.set "x" (Value.int 5), 1⟩
      [⟨"x + 1", Except.ok [Stmt.exprStmt (Expr.add (Expr.var "x") (Expr.lit (Value.int 1)))]⟩,
       ⟨"import os", Except.ok [Stmt.importStmt "os"]⟩]).globals "x" =
      (initGlobals.set "x" (Value.int 5)) "x" :=
⟨by decide, by decide,
 env_monotonic_across_calls ⟨initGlobals.set "x" (Value.int 5), 1⟩ _ "x"
   (by decide) (by decide) (by decide)⟩

/-- C2 counterexample: the claim says the `_` binding is never set to the
null value, but the source's slot pop assigns `self.globals["_"] =
result_value` with no `None` guard, so a call whose final bare expression
evaluates to `None` sets `_` to `None`: here `_` was unbound before the
call and is bound to `None` after it. -/
theorem last_value_none_cex :
    ((execute initState
        ⟨"None", Except.ok [Stmt.exprStmt (Expr.lit Value.none)]⟩).2.globals "_")
      = some Value.none
    ∧ initState.globals "_" = none := by decide

/-- C2 (amended): the `_` binding is updated by `execute`'s read-back
exactly when the call's final top-level statement was a bare expression
and execution completed without a fault; it is then set to the captured
expression value — which may be the null value — for use by later calls;
in every other case the read-back machinery leaves `_` exactly as the
executed statements left it. -/
theorem last_value_update_amended (st : ExecState) (text : String)
    (body : List Stmt) (hb : isBlank text = false) :
    (((rewriteBody body).2 = true ∧
        (runStmts st.globals (rewriteBody body).1).err = none) →
      ∃ v, (runStmts st.globals (rewriteBody body).1).env RESULT_SLOT = some v ∧
        (execute st ⟨text, Except.ok body⟩).2.globals "_" = some v)
    ∧ (¬((rewriteBody body).2 = true ∧
          (runStmts st.globals (rewriteBody body).1).err = none) →
      (execute st ⟨text, Except.ok body⟩).2.globals "_" =
        (runStmts st.globals (rewriteBody body).1).env "_") := by
constructor
· rintro ⟨hcap, herr⟩
  obtain ⟨p, e, hshape⟩ := capture_shape body hcap
  subst hshape
  have hrw1 : (rewriteBody (p ++ [Stmt.exprStmt e])).1 =
      p ++ [Stmt.assign RESULT_SLOT e] := by
    rw [rewriteBody_concat]
    rfl
  have herr₂ : (runStmts st.globals (p ++ [Stmt.assign RESULT_SLOT e])).err = none := by
    rw [← hrw1]
    exact herr
  have hslot : ((runStmts st.globals
      (rewriteBody (p ++ [Stmt.exprStmt e])).1).env RESULT_SLOT).isSome := by
    rw [hrw1]
    exact runStmts_last_assign p st.globals RESULT_SLOT e herr₂
  obtain ⟨v, hv⟩ := Option.isSome_iff_exists.mp hslot
  refine ⟨v, hv, ?_⟩
  rw [execute_run hb, execBody_capture hcap herr hv]
  dsimp only
  exact Env.set_apply_self _ _ _
· intro hnot
  rw [execute_run hb]
  cases herr : (runStmts st.globals (rewriteBody body).1).err with
  | none =>
    cases hcap : (rewriteBody body).2 with
    | false =>
      rw [execBody_plain herr hcap]
    | true => exact absurd ⟨hcap, herr⟩ hnot
  | some e =>
    rw [execBody_fault herr]

theorem last_value_update_amended_witness :
    (∃ v, (runStmts initState.globals
        (rewriteBody [Stmt.exprStmt (Expr.lit Value.none)]).1).env RESULT_SLOT = some v ∧
      (execute initState
        ⟨"None", Except.ok [Stmt.exprStmt (Expr.lit Value.none)]⟩).2.globals "_" = some v)
    ∧ ((execute initState
        ⟨"x = 1", Except.ok [Stmt.assign "x" (Expr.lit (Value.int 1))]⟩).2.globals "_" =
      (runStmts initState.globals
        (rewriteBody [Stmt.assign "x" (Expr.lit (Value.int 1))]).1).env "_") :=
⟨(last_value_update_amended initState "None" _ (by decide)).1 ⟨by decide, by decide⟩,
 (last_value_update_amended initState "x = 1" _ (by decide)).2 (by decide)⟩

/-- C3: for every non-blank input the report is composed exactly as the
spec states: the counter label first, then the rstripped captured stdout
if non-empty, then `repr` of the result value exactly when it is not the
null sentinel — so a false-like but non-null final value such as `0` still
displays while a `None` result never does — then the rstripped captured
stderr if non-empty, with newlines only between present parts.  The
right-hand side uses `specComposeReport`, written from the spec's words,
applied to the captured data of the corresponding branch of the source. -/
theorem report_composition (st : ExecState) (inp : Input)
    (h : isBlank inp.text = false) :
    (execute st inp).1 =
      match inp.parsed with
      | Except.error m =>
        specComposeReport (st.execution_count + 1) "" Value.none (synTraceback m)
      | Except.ok body =>
        specComposeReport (st.execution_count + 1) (execBody st.globals body).out
          (execBody st.globals body).rv (execBody st.globals body).err := by
rcases inp with ⟨text, parsed⟩
cases parsed with
| error m =>
  rw [execute_synErr h]
  exact compose_eq_spec (st.execution_count + 1) "" Value.none (synTraceback m)
| ok body =>
  rw [execute_run h]
  exact compose_eq_spec (st.execution_count + 1) (execBody st.globals body).out
    (execBody st.globals body).rv (execBody st.globals body).err

theorem report_composition_witness :
    isBlank "0" = false ∧
    (execute initState
        ⟨"0", Except.ok [Stmt.exprStmt (Expr.lit (Value.int 0))]⟩).1 =
      specComposeReport 1 "" (Value.int 0) "" :=
⟨by decide,
 (report_composition initState
    ⟨"0", Except.ok [Stmt.exprStmt (Expr.lit (Value.int 0))]⟩ (by decide)).trans
  (by decide)⟩

/-- C4: when a runtime fault interrupts a fragment after a fault-free
prefix `p`, every mutation made by `p` persists (the final namespace is
exactly the one `p` reached — no rollback), the statements after the
faulting one never run (the result does not depend on `rest`), and the
report carries the fault's formatted traceback as its error text, with the
stdout written before and during the faulting statement. -/
theorem runtime_fault_partial_effects (st : ExecState) (text : String)
    (body p rest : List Stmt) (s : Stmt) (g₁ : Env) (o₁ o₂ : String) (e : PyErr)
    (hb : isBlank text = false)
    (hrw : (rewriteBody body).1 = p ++ s :: rest)
    (hp : runStmts st.globals p = ⟨g₁, o₁, none⟩)
    (hs : execStmt g₁ s = (o₂, Except.error e)) :
    execute st ⟨text, Except.ok body⟩ =
      (composeParts (st.execution_count + 1) (o₁ ++ o₂) Value.none (formatExc e),
       ⟨g₁, st.execution_count + 1⟩) := by
have hrun : runStmts st.globals (rewriteBody body).1 = ⟨g₁, o₁ ++ o₂, some e⟩ := by
  rw [hrw]
  exact runStmts_fault_append p st.globals g₁ o₁ s o₂ e rest hp hs
rw [execute_run hb, execBody_fault (by rw [hrun])]
rw [hrun]

theorem runtime_fault_partial_effects_witness :
    isBlank "x = 1\n1/0\ny = 2" = false ∧
    execute initState ⟨"x = 1\n1/0\ny = 2", Except.ok
        [Stmt.assign "x" (Expr.lit (Value.int 1)),
         Stmt.exprStmt (Expr.div (Expr.lit (Value.int 1)) (Expr.lit (Value.int 0))),
         Stmt.assign "y" (Expr.lit (Value.int 2))]⟩ =
      (composeParts 1 "" Value.none (formatExc ⟨"ZeroDivisionError", "division by zero"⟩),
       ⟨initGlobals.set "x" (Value.int 1), 1⟩) :=
⟨by decide,
 runtime_fault_partial_effects initState "x = 1\n1/0\ny = 2"
   [Stmt.assign "x" (Expr.lit (Value.int 1)),
    Stmt.exprStmt (Expr.div (Expr.lit (Value.int 1)) (Expr.lit (Value.int 0))),
    Stmt.assign "y" (Expr.lit (Value.int 2))]
   [Stmt.assign "x" (Expr.lit (Value.int 1))]
   [Stmt.assign "y" (Expr.lit (Value.int 2))]
   (Stmt.exprStmt (Expr.div (Expr.lit (Value.int 1)) (Expr.lit (Value.int 0))))
   (initGlobals.set "x" (Value.int 1)) "" ""
   ⟨"ZeroDivisionError", "division by zero"⟩
   (by decide) (by decide) rfl rfl⟩

/-- C5: `execute` never raises to its caller: for every state and every
input — blank, syntactically invalid (the `Except.error` parse oracle), or
faulting at runtime (every fault of the modelled fragment is
`Exception`-derived and is folded into `runStmts`'s `err` field, mirroring
the source's `except Exception` handler) — `execute` returns a textual
report that extends the counter label, and the counter is incremented
exactly once. -/
theorem execute_never_raises (st : ExecState) (inp : Input) :
    (∃ t : String, (execute st inp).1 = execLabel (st.execution_count + 1) ++ t)
    ∧ (execute st inp).2.execution_count = st.execution_count + 1 := by
rcases inp with ⟨text, parsed⟩
by_cases hbl : isBlank text = true
· rw [execute_blank hbl]
  exact ⟨⟨"", (String.append_empty _).symm⟩, rfl⟩
· have hbl₂ : isBlank text = false := by simpa using hbl
  cases parsed with
  | error m =>
    rw [execute_synErr hbl₂]
    exact ⟨composeParts_label (st.execution_count + 1) "" Value.none (synTraceback m),
      rfl⟩
  | ok body =>
    rw [execute_run hbl₂]
    exact ⟨composeParts_label (st.execution_count + 1) (execBody st.globals body).out
      (execBody st.globals body).rv (execBody st.globals body).err, rfl⟩

/-- C6: on a parse failure (the oracle reports a `SyntaxError`), `execute`
runs nothing: the returned state carries the very same `globals` mapping,
and the report is the label followed by one error-text line, the
rstripped formatted traceback — no stdout line and no value line. -/
theorem syntax_error_env_unchanged (st : ExecState) (text m : String)
    (h : isBlank text = false) :
    execute st ⟨text, Except.error m⟩ =
      (execLabel (st.execution_count + 1) ++ "\n" ++ rstrip (synTraceback m),
       ⟨st.globals, st.execution_count + 1⟩) := by
rw [execute_synErr h]
have htb := synTraceback_ne_empty m
simp [composeParts, htb, joinLines, String.append_assoc]

theorem syntax_error_env_unchanged_witness :
    isBlank "(" = false ∧
    execute initState ⟨"(", Except.error "unexpected EOF"⟩ =
      (execLabel 1 ++ "\n" ++ rstrip (synTraceback "unexpected EOF"),
       ⟨initState.globals, 1⟩) :=
⟨by decide, syntax_error_env_unchanged initState "(" "unexpected EOF" (by decide)⟩

/-- C7 counterexample: the claim says the reserved slot name never appears
as a binding after any call, but a fragment whose own code assigns the
reserved name in a non-final-expression position leaves it bound: after
this call the slot is visibly bound to `5` in the Environment. -/
theorem slot_leak_cex :
    (execute initState
        ⟨"slot = 5", Except.ok
          [Stmt.assign RESULT_SLOT (Expr.lit (Value.int 5))]⟩).2.globals RESULT_SLOT
      = some (Value.int 5) := by decide

/-- C7 (amended): whenever a capture was expected (the fragment ends in a
bare expression) and execution completes without fault, the reserved slot
is bound after the run, `execute` removes it from the visible mapping,
extracts its value as the call's result value (it appears as the report's
value argument), and updates `_` with it; the slot can only remain visible
when user code itself bound it outside this capture protocol. -/
theorem slot_capture_amended (st : ExecState) (text : String) (p : List Stmt)
    (e : Expr) (hb : isBlank text = false)
    (he : (runStmts st.globals (rewriteBody (p ++ [Stmt.exprStmt e])).1).err = none) :
    ∃ v, (runStmts st.globals (rewriteBody (p ++ [Stmt.exprStmt e])).1).env RESULT_SLOT
        = some v
      ∧ (execute st ⟨text, Except.ok (p ++ [Stmt.exprStmt e])⟩).2.globals RESULT_SLOT
        = none
      ∧ (execute st ⟨text, Except.ok (p ++ [Stmt.exprStmt e])⟩).2.globals "_" = some v
      ∧ (execute st ⟨text, Except.ok (p ++ [Stmt.exprStmt e])⟩).1 =
          composeParts (st.execution_count + 1)
            (runStmts st.globals (rewriteBody (p ++ [Stmt.exprStmt e])).1).out v "" := by
have hcap : (rewriteBody (p ++ [Stmt.exprStmt e])).2 = true := by
  rw [rewriteBody_concat]
  rfl
have hrw1 : (rewriteBody (p ++ [Stmt.exprStmt e])).1 =
    p ++ [Stmt.assign RESULT_SLOT e] := by
  rw [rewriteBody_concat]
  rfl
have he₂ : (runStmts st.globals (p ++ [Stmt.assign RESULT_SLOT e])).err = none := by
  rw [← hrw1]
  exact he
have hslot : ((runStmts st.globals
    (rewriteBody (p ++ [Stmt.exprStmt e])).1).env RESULT_SLOT).isSome := by
  rw [hrw1]
  exact runStmts_last_assign p st.globals RESULT_SLOT e he₂
obtain ⟨v, hv⟩ := Option.isSome_iff_exists.mp hslot
have hne : RESULT_SLOT ≠ "_" := by decide
refine ⟨v, hv, ?_, ?_, ?_⟩
· rw [execute_run hb, execBody_capture hcap he hv]
  dsimp only
  rw [Env.set_apply_ne _ _ _ _ hne, Env.erase_apply_self]
· rw [execute_run hb, execBody_capture hcap he hv]
  dsimp only
  exact Env.set_apply_self _ _ _
· rw [execute_run hb, execBody_capture hcap he hv]

theorem slot_capture_amended_witness :
    ∃ v, (runStmts initState.globals
        (rewriteBody ([] ++ [Stmt.exprStmt (Expr.lit (Value.int 3))])).1).env RESULT_SLOT
        = some v
      ∧ (execute initState
          ⟨"3", Except.ok
            ([] ++ [Stmt.exprStmt (Expr.lit (Value.int 3))])⟩).2.globals RESULT_SLOT
        = none
      ∧ (execute initState
          ⟨"3", Except.ok
            ([] ++ [Stmt.exprStmt (Expr.lit (Value.int 3))])⟩).2.globals "_" = some v
      ∧ (execute initState
          ⟨"3", Except.ok ([] ++ [Stmt.exprStmt (Expr.lit (Value.int 3))])⟩).1 =
        composeParts 1 (runStmts initState.globals
          (rewriteBody ([] ++ [Stmt.exprStmt (Expr.lit (Value.int 3))])).1).out v "" :=
slot_capture_amended initState "3" [] (Expr.lit (Value.int 3)) (by decide) (by decide)

/-- C8: on empty or whitespace-only input, `execute` increments the
counter, attempts no execution, keeps the very same `globals` mapping, and
returns exactly the label with no body — whatever the parse oracle says. -/
theorem empty_input_label_only (st : ExecState) (inp : Input)
    (h : isBlank inp.text = true) :
    execute st inp =
      (execLabel (st.execution_count + 1), ⟨st.globals, st.execution_count + 1⟩) :=
execute_blank h

theorem empty_input_label_only_witness :
    isBlank " \n\t" = true ∧
    execute initState ⟨" \n\t", Except.error "boom"⟩ =
      (execLabel 1, ⟨initState.globals, 1⟩) :=
⟨by decide, empty_input_label_only initState ⟨" \n\t", Except.error "boom"⟩ (by decide)⟩

/-- C9 counterexample: the claim says the inbound channel tag is copied
exactly when the request carried one, but the source guards the copy with
Python truthiness (`if message.channel:`), so a request carrying the
empty-string channel gets a response with no channel tag. -/
theorem channel_empty_not_copied_cex :
    (MessageM.channel ⟨⟨MRole.user, "u"⟩, [⟨"pass"⟩], some "", none⟩).isSome = true
    ∧ (process (fun _ => Except.ok [Stmt.pass]) initState
        ⟨⟨MRole.user, "u"⟩, [⟨"pass"⟩], some "", none⟩).1 =
      [⟨⟨MRole.tool, "python"⟩, [⟨"[Execution #1]"⟩], none, some "assistant"⟩] := by
decide

/-- C9 (amended): for every inbound message, `_process` yields exactly one
response, authored by the tool role with name `"python"`, addressed to
`"assistant"`, whose single text part is the fixed diagnostic when the
request has no content parts or an empty first text (in which case the
executor is not invoked and its state is untouched) and the execution
report otherwise; the inbound channel tag is copied onto the response
exactly when the request carried a non-empty one. -/
theorem process_envelope_amended (parse : String → Except String (List Stmt))
    (st : ExecState) (message : MessageM) :
    (process parse st message).1 =
      [⟨⟨MRole.tool, "python"⟩,
        [⟨if firstText message = "" then "Error: No code provided"
          else (execute st ⟨firstText message, parse (firstText message)⟩).1⟩],
        (match message.channel with
         | some c => if c = "" then none else some c
         | none => none),
        some "assistant"⟩]
    ∧ (process parse st message).2 =
      (if firstText message = "" then st
       else (execute st ⟨firstText message, parse (firstText message)⟩).2) := by
cases hch : message.channel with
| none =>
  by_cases hc : firstText message = "" <;> simp [process, hc, hch]
| some c =>
  by_cases hcc : c = "" <;> by_cases hc : firstText message = "" <;>
    simp [process, hc, hch, hcc]

theorem process_envelope_amended_witness :
    (process (fun _ => Except.ok [Stmt.pass]) initState
        ⟨⟨MRole.user, "u"⟩, [], none, none⟩).1 =
      [⟨⟨MRole.tool, "python"⟩, [⟨"Error: No code provided"⟩], none, some "assistant"⟩]
    ∧ (process (fun _ => Except.ok [Stmt.pass]) initState
        ⟨⟨MRole.user, "u"⟩, [], none, none⟩).2 = initState :=
⟨((process_envelope_amended (fun _ => Except.ok [Stmt.pass]) initState
    ⟨⟨MRole.user, "u"⟩, [], none, none⟩).1).trans (by decide),
 ((process_envelope_amended (fun _ => Except.ok [Stmt.pass]) initState
    ⟨⟨MRole.user, "u"⟩, [], none, none⟩).2).trans (by rfl)⟩

/-- C10 counterexample: the claim says that after a runtime fault the `_`
binding retains exactly the value (or absence) it had before the call, but
a fragment that itself assigns `_` before faulting changes it: `_` was
unbound before this call and is bound to `9` after it, and the run did
fault with a `ZeroDivisionError`. -/
theorem underscore_fault_cex :
    (execute initState ⟨"cex", Except.ok
        [Stmt.assign "_" (Expr.lit (Value.int 9)),
         Stmt.exprStmt (Expr.div (Expr.lit (Value.int 1))
           (Expr.lit (Value.int 0)))]⟩).2.globals "_" = some (Value.int 9)
    ∧ initState.globals "_" = none
    ∧ (runStmts initState.globals (rewriteBody
        [Stmt.assign "_" (Expr.lit (Value.int 9)),
         Stmt.exprStmt (Expr.div (Expr.lit (Value.int 1)) (Expr.lit (Value.int 0)))]).1).err
      = some ⟨"ZeroDivisionError", "division by zero"⟩ := by decide

/-- C10 (amended): when executing a fragment raises a runtime fault, the
reserved-slot read-back is skipped entirely, so — provided no statement of
the fragment itself assigns or deletes `_` — the `_` binding retains
exactly the value (or absence) it had before the call, and the report's
value argument is the null sentinel (no value line), even when the
fragment's final top-level statement was a bare expression. -/
theorem fault_skips_readback_amended (st : ExecState) (text : String)
    (body : List Stmt) (e : PyErr) (hb : isBlank text = false)
    (herr : (runStmts st.globals (rewriteBody body).1).err = some e)
    (hus : ∀ s ∈ body, "_" ∉ s.targets) :
    (execute st ⟨text, Except.ok body⟩).2.globals "_" = st.globals "_"
    ∧ (execute st ⟨text, Except.ok body⟩).1 =
        composeParts (st.execution_count + 1)
          (runStmts st.globals (rewriteBody body).1).out Value.none (formatExc e) := by
have hts := rewriteBody_targets body "_" (by decide) hus
have hframe : (runStmts st.globals (rewriteBody body).1).env "_" = st.globals "_" :=
  runStmts_frame _ _ hts
rw [execute_run hb, execBody_fault herr]
exact ⟨hframe, rfl⟩

theorem fault_skips_readback_amended_witness :
    (execute initState ⟨"1/0", Except.ok
        [Stmt.exprStmt (Expr.div (Expr.lit (Value.int 1))
          (Expr.lit (Value.int 0)))]⟩).2.globals "_" = initState.globals "_"
    ∧ (execute initState ⟨"1/0", Except.ok
        [Stmt.exprStmt (Expr.div (Expr.lit (Value.int 1)) (Expr.lit (Value.int 0)))]⟩).1 =
      composeParts 1 (runStmts initState.globals (rewriteBody
          [Stmt.exprStmt (Expr.div (Expr.lit (Value.int 1)) (Expr.lit (Value.int 0)))]).1).out
        Value.none (formatExc ⟨"ZeroDivisionError", "division by zero"⟩) :=
fault_skips_readback_amended initState "1/0"
  [Stmt.exprStmt (Expr.div (Expr.lit (Value.int 1)) (Expr.lit (Value.int 0)))]
  ⟨"ZeroDivisionError", "division by zero"⟩ (by decide) (by decide) (by decide)

end StatefulPython
